import Mathlib

/-!
Shallow embedding of the combadge declarative binding engine.

The embedding follows the Python sources:
  * `combadge/core/binder.py` — `bind_class` (memoized with `lru_cache(maxsize=100)`),
    `_wrap`, `_enumerate_methods`, `ParameterDescriptor`;
  * `combadge/core/markers/method.py` — `MethodMarker.ensure_markers`, `MethodMarker.mark`;
  * `combadge/support/rest/marks.py` — `RestMethodMark`, `QueryParameterMark`;
  * `combadge/support/http/abc.py` — `SupportsUrlPath.get_url_path`, `SupportsMethod.get_method`;
  * `combadge/support/zeep/backends/async_.py` — `ZeepBackend.__call__`, `ZeepBackend.bind_method`.

Argument values are modelled as `Int`; Python mapping objects are association lists.
Parts of the engine whose module is not in the repository snapshot
(`combadge/core/request.py`, `combadge/core/signature.py`, the zeep base backend)
are modelled from the specification and marked as such in their doc comments.
-/

namespace Combadge

/-! ## Binding cache (`bind_class`, `functools.lru_cache(maxsize=100)`) -/

/-- Cache key of `bind_class`: the identity of the service protocol and of the
binder strategy, modelled as a pair of identifiers. -/
abbrev CacheKey := Nat × Nat

/-- State of the memoized `bind_class`: the LRU cache (most recent first, as
`functools.lru_cache` keeps it) mapping keys to the identity of the generated
implementation class, plus a counter supplying a fresh identity for every
actually performed class generation. -/
structure BinderState where
  cache : List (CacheKey × Nat)
  counter : Nat
deriving DecidableEq

/-- Lookup of a key in the cache list. -/
def lookupCache (k : CacheKey) : List (CacheKey × Nat) → Option Nat
  | [] => none
  | (k2, v) :: t => if k2 = k then some v else lookupCache k t

/-- Removal of a key from the cache list (used when a hit is moved to the front). -/
def eraseCache (k : CacheKey) : List (CacheKey × Nat) → List (CacheKey × Nat)
  | [] => []
  | (k2, v) :: t => if k2 = k then t else (k2, v) :: eraseCache k t

/-- The `lru_cache(maxsize=100)`-decorated `bind_class` of `combadge/core/binder.py`.
On a hit the cached class identity is returned and the entry moves to the
most-recently-used position; on a miss a fresh implementation class is generated
(fresh identity from the counter), inserted in front, and the least-recently-used
entry is dropped if the capacity of 100 would be exceeded. -/
def bind_class (st : BinderState) (k : CacheKey) : Nat × BinderState :=
  match lookupCache k st.cache with
  | some v => (v, { st with cache := (k, v) :: eraseCache k st.cache })
  | none =>
      (st.counter,
       { cache := ((k, st.counter) :: st.cache).take 100, counter := st.counter + 1 })

/-! ## Marker attachment (`combadge/core/markers/method.py`) -/

/-- A Python function object as `MethodMarker.ensure_markers` sees it: an identity
and the optional `__combadge_marks__` attribute (absent until first use). -/
structure FuncObj where
  fid : Nat
  combadge_marks : Option (List Nat)
deriving DecidableEq

/-- `MethodMarker.ensure_markers`: return the stored mark list, creating an empty
one (a mutation of the function object) when the attribute is absent. The result
is the possibly-updated function object together with the returned list. -/
def MethodMarker.ensure_markers (f : FuncObj) : FuncObj × List Nat :=
  match f.combadge_marks with
  | some l => (f, l)
  | none => ({ f with combadge_marks := some [] }, [])

/-- `MethodMarker.mark`: append the marker to the function object's mark list and
return the function object itself. -/
def MethodMarker.mark (m : Nat) (f : FuncObj) : FuncObj :=
  { (MethodMarker.ensure_markers f).1 with
      combadge_marks := some ((MethodMarker.ensure_markers f).2 ++ [m]) }

/-! ## Bind-time wrapping (`_wrap` of `combadge/core/binder.py`) -/

/-- A method marker as `_wrap` consumes it: only its `wrap` hook matters there. -/
structure WrapMarker (C : Type) where
  wrap : C → C

/-- `_wrap`: successively apply each marker's `wrap` hook to the method,
in the order the markers appear in the list. -/
def _wrap {C : Type} (method : C) (with_marks : List (WrapMarker C)) : C :=
  with_marks.foldl (fun m mk => mk.wrap m) method

/-- Instrumented callable used to observe wrapping: the list of marker
identities applied around the base callable, outermost first. -/
structure TracedCallable where
  applied : List Nat
  baseId : Nat
deriving DecidableEq

/-- Tracing marker: its `wrap` hook records its identity as the new outermost layer. -/
def tracingMarker (m : Nat) : WrapMarker TracedCallable :=
  ⟨fun c => { c with applied := m :: c.applied }⟩

/-! ## Method enumeration (`_enumerate_methods` of `combadge/core/binder.py`) -/

/-- A member of a service protocol as `inspect.getmembers` delivers it:
its name, whether it is callable, and its declared parameter names in order. -/
structure Member where
  name : String
  isCallable : Bool
  params : List String
deriving DecidableEq

/-- The `name.startswith("_")` test of `_enumerate_methods`, stated on the
name's first character. -/
def startsWithUnderscore (name : String) : Bool :=
  match name.data with
  | [] => false
  | c :: _ => c == '_'

/-- `_enumerate_methods`: keep the callable members whose name does not start
with an underscore and whose parameters contain `self`; everything else is
skipped without an error. -/
def _enumerate_methods (members : List Member) : List Member :=
  members.filter fun m => m.isCallable && !startsWithUnderscore m.name && m.params.contains "self"

/-! ## Requests, marks and the request builder -/

/-- Bound call arguments: parameter name to value, as an association list. -/
abbrev Args := List (String × Int)

/-- Lookup of a bound argument by parameter name. -/
def lookupArg (args : Args) (name : String) : Option Int :=
  match args with
  | [] => none
  | (n, v) :: t => if n = name then some v else lookupArg t name

/-- A REST request under construction, with the mutable fields provided by the
`combadge/support/http/abc.py` mixins used by the REST marks: the HTTP method,
the URL path and the query parameters (all initially empty). -/
structure RestRequest where
  method : Option String := none
  path : Option String := none
  query_params : List (String × Int) := []
deriving DecidableEq

/-- The method markers of `combadge/support/rest/marks.py` relevant here:
`RestMethodMark` (sets the request's HTTP method) and a wrap-only marker such as
`_WrapWithMethodMarker`, whose inherited `prepare_request` does nothing. -/
inductive MethodMarkModel where
  | restMethodMark (verb : String)
  | wrapWithMarker (id : Nat)
deriving DecidableEq

/-- `prepare_request` of a method mark: `RestMethodMark.prepare_request` assigns
`request.method = self.method`; the wrap-only marker leaves the request alone. -/
def MethodMarkModel.prepare_request : MethodMarkModel → RestRequest → Args → RestRequest
  | .restMethodMark verb, req, _ => { req with method := some verb }
  | .wrapWithMarker _, req, _ => req

/-- Whether a method mark's `prepare_request` assigns the request's method field. -/
def setsMethodField : MethodMarkModel → Bool
  | .restMethodMark _ => true
  | .wrapWithMarker _ => false

/-- The parameter mark of `combadge/support/rest/marks.py`: `QueryParameterMark`. -/
inductive ParameterMarkModel where
  | queryParam (name : String)
deriving DecidableEq

/-- `QueryParameterMark.prepare_request`: append `(self.name, value)` to the
request's query parameters; no other field is touched. -/
def ParameterMarkModel.prepare_request : ParameterMarkModel → RestRequest → Int → RestRequest
  | .queryParam n, req, v => { req with query_params := req.query_params ++ [(n, v)] }

/-- `ParameterDescriptor` of `combadge/core/binder.py`: the parameter's name and
the marker used to apply it to a request (absent when the parameter carries no
parameter mark and hence is not placed into the request automatically). -/
structure ParameterDescriptor where
  name : String
  marker : Option ParameterMarkModel
deriving DecidableEq

/-- Method descriptor (the `Signature` of `combadge/core/signature.py`, module
not in the snapshot): the method markers in declaration order and the parameter
descriptors in declared parameter order. -/
structure Signature where
  method_markers : List MethodMarkModel
  parameters : List ParameterDescriptor
deriving DecidableEq

/-- Phase of `build_request` applying every method marker's `prepare_request`
with the whole bound-arguments mapping, in declaration order. -/
def applyMethodMarkers (args : Args) (l : List MethodMarkModel) (r : RestRequest) : RestRequest :=
  l.foldl (fun r m => m.prepare_request r args) r

/-- One parameter's contribution to `build_request`: a marked parameter applies
its marker's `prepare_request` to its own bound value, an unmarked parameter
(or one without a bound value) leaves the request untouched. -/
def applyParameterStep (args : Args) (r : RestRequest) (p : ParameterDescriptor) : RestRequest :=
  match p.marker with
  | some mk =>
      match lookupArg args p.name with
      | some v => mk.prepare_request r v
      | none => r
  | none => r

/-- Phase of `build_request` applying the parameter markers in declared
parameter order. -/
def applyParameterMarkers (args : Args) (l : List ParameterDescriptor) (r : RestRequest) : RestRequest :=
  l.foldl (applyParameterStep args) r

/-- Modelled from the spec: `build_request` (`combadge/core/request.py` is not in
the snapshot). Instantiate an empty request, apply every method marker's
`prepare_request` with the whole bound-arguments mapping in declaration order,
then apply each marked parameter's `prepare_request` with that parameter's own
value in declared parameter order, and return the built request. -/
def build_request (sig : Signature) (args : Args) : RestRequest :=
  applyParameterMarkers args sig.parameters (applyMethodMarkers args sig.method_markers {})

/-- One observable marker application during a request build: a method marker's
`prepare_request` (receiving the whole bound-arguments mapping) or a parameter
marker's `prepare_request` (receiving only that parameter's value). -/
inductive BuildStep where
  | methodStep (m : MethodMarkModel) (argsReceived : Args)
  | paramStep (name : String) (value : Int)
deriving DecidableEq

/-- Instrumented variant of `applyMethodMarkers` that also records each method
marker application together with the arguments it received. -/
def applyMethodMarkersT (args : Args) (l : List MethodMarkModel)
    (rt : RestRequest × List BuildStep) : RestRequest × List BuildStep :=
  l.foldl (fun rt m => (m.prepare_request rt.1 args, rt.2 ++ [.methodStep m args])) rt

/-- Instrumented variant of `applyParameterStep` that also records a marked
parameter's marker application together with the single value it received. -/
def applyParameterStepT (args : Args) (rt : RestRequest × List BuildStep)
    (p : ParameterDescriptor) : RestRequest × List BuildStep :=
  match p.marker with
  | some mk =>
      match lookupArg args p.name with
      | some v => (mk.prepare_request rt.1 v, rt.2 ++ [.paramStep p.name v])
      | none => rt
  | none => rt

/-- Instrumented variant of `applyParameterMarkers`. -/
def applyParameterMarkersT (args : Args) (l : List ParameterDescriptor)
    (rt : RestRequest × List BuildStep) : RestRequest × List BuildStep :=
  l.foldl (applyParameterStepT args) rt

/-- Modelled from the spec: `build_request` instrumented to record every marker
application in execution order, alongside the request it builds. -/
def build_request_trace (sig : Signature) (args : Args) : RestRequest × List BuildStep :=
  applyParameterMarkersT args sig.parameters (applyMethodMarkersT args sig.method_markers ({}, []))

/-- Net effect of a marker list on the request's HTTP method field: the verb of
the last method-setting marker, if any (proof-layer closed form). -/
def methodFieldAfter (l : List MethodMarkModel) (cur : Option String) : Option String :=
  l.foldl
    (fun c m =>
      match m with
      | .restMethodMark s => some s
      | .wrapWithMarker _ => c)
    cur

/-! ## The bound method call pipeline (`bind_class` per-method composition) -/

/-- A parameter as the call-time validation layer sees it: its name and whether
it is required (has no default). -/
structure CallParameter where
  name : String
  required : Bool
deriving DecidableEq

/-- The argument-validation layer (`pydantic.validate_arguments`, an external
collaborator: the spec only requires the capability of rejecting arguments that
do not conform to the declared parameters): every required declared parameter
must have a bound value, otherwise the call fails before anything else runs. -/
def validate_arguments (params : List CallParameter) (args : Args) : Except String Args :=
  if params.all (fun p => !p.required || (lookupArg args p.name).isSome) then .ok args
  else .error "missing required argument"

/-- Observable events of one bound-method call: the request builder producing a
request, and the backend transport being invoked. -/
inductive CallEvent where
  | requestBuilt (r : RestRequest)
  | transportCalled
deriving DecidableEq

/-- The composite bound method exactly as `bind_class` layers it: the
`validate_arguments` wrapper is applied last, hence runs first, and only on
success does the inner dispatch build the request and call the transport. -/
def bound_method (sig : Signature) (params : List CallParameter) (args : Args) :
    List CallEvent × Except String RestRequest :=
  match validate_arguments params args with
  | .error e => ([], .error e)
  | .ok a =>
      let req := build_request sig a
      ([.requestBuilt req, .transportCalled], .ok req)

/-! ## Zeep backend (`combadge/support/zeep/backends/async_.py`) -/

/-- Outcome of the zeep transport call: a normal response payload, or a
`zeep.exceptions.Fault` raised by the operation. -/
inductive SoapOutcome where
  | response (raw : Int)
  | fault (code : Int)
deriving DecidableEq

/-- A declared return annotation of a SOAP service method: the union of a
success shape and a fault shape, each named by an identifier. -/
inductive ReturnAnnotation where
  | unionOf (successShape faultShape : Nat)
deriving DecidableEq

/-- A parsed call result, remembering which shape the payload was parsed into:
`_parse_response(response, response_type)` or `_parse_soap_fault(e, fault_type)`. -/
inductive ParsedModel where
  | success (shape : Nat) (raw : Int)
  | soapFault (shape : Nat) (code : Int)
deriving DecidableEq

/-- Modelled from the spec: `_split_response_type` (the zeep base backend module
is not in the snapshot) splits the declared return type into its success shape
and its fault shape. -/
def ZeepBackend.split_response_type : ReturnAnnotation → Nat × Nat
  | .unionOf s f => (s, f)

/-- `ZeepBackend.__call__`: run the operation; a raised `Fault` is parsed into
the fault type, a normal response is parsed into the response type. -/
def ZeepBackend.call (response_type fault_type : Nat) : SoapOutcome → ParsedModel
  | .response raw => .success response_type raw
  | .fault code => .soapFault fault_type code

/-- `ZeepBackend.bind_method`: split the declared return annotation once at bind
time and close over the resulting response and fault types for every call. -/
def ZeepBackend.bind_method (ann : ReturnAnnotation) : SoapOutcome → ParsedModel :=
  ZeepBackend.call (ZeepBackend.split_response_type ann).1 (ZeepBackend.split_response_type ann).2

/-! ## HTTP request accessors (`combadge/support/http/abc.py`) -/

/-- `SupportsUrlPath`: the request mixin holding an optional URL path. -/
structure SupportsUrlPath where
  url_path : Option String
deriving DecidableEq

/-- `SupportsUrlPath.get_url_path`: return the stored path, raising `ValueError`
when the stored value is falsy (absent or the empty string). -/
def SupportsUrlPath.get_url_path (s : SupportsUrlPath) : Except String String :=
  match s.url_path with
  | none => .error "an HTTP request requires a non-empty URL path"
  | some p => if p = "" then .error "an HTTP request requires a non-empty URL path" else .ok p

/-- `SupportsMethod`: the request mixin holding an optional HTTP method. -/
structure SupportsMethod where
  method : Option String
deriving DecidableEq

/-- `SupportsMethod.get_method`: return the stored method, raising `ValueError`
when the stored value is falsy (absent or the empty string). -/
def SupportsMethod.get_method (s : SupportsMethod) : Except String String :=
  match s.method with
  | none => .error "an HTTP request requires a non-empty method"
  | some m => if m = "" then .error "an HTTP request requires a non-empty method" else .ok m

/-! ## Theorems -/

/-- Helper: a list of tracing markers records the marker identities in reverse
declaration order (outermost first) around the base callable. -/
theorem wrap_traced_applied (ms : List Nat) (t : TracedCallable) :
    _wrap t (ms.map tracingMarker) = ⟨ms.reverse ++ t.applied, t.baseId⟩ := by
  induction ms generalizing t with
  | nil => rfl
  | cons m rest ih =>
      have h1 : _wrap t ((m :: rest).map tracingMarker)
          = _wrap ⟨m :: t.applied, t.baseId⟩ (rest.map tracingMarker) := rfl
      rw [h1, ih]
      simp

/-- C7: at bind time `_wrap` applies every method marker's `wrap` hook exactly
once, as an ordered fold over the marker list after the base callable exists:
it distributes over list append, a singleton list is one `wrap` application, and
on instrumented callables the applied layers are exactly the declared markers,
innermost-first in declaration order (outermost is the last declared). -/
theorem wrap_applies_hooks_in_declared_order {C : Type} (c : C) (mk : WrapMarker C)
    (l1 l2 : List (WrapMarker C)) (ms : List Nat) (t : TracedCallable) :
    _wrap c (l1 ++ l2) = _wrap (_wrap c l1) l2
    ∧ _wrap c [mk] = mk.wrap c
    ∧ (_wrap t (ms.map tracingMarker)).applied = ms.reverse ++ t.applied
    ∧ (_wrap t (ms.map tracingMarker)).baseId = t.baseId := by
  refine ⟨?_, rfl, ?_, ?_⟩
  · simp [_wrap, List.foldl_append]
  · rw [wrap_traced_applied]
  · rw [wrap_traced_applied]

/-- C10: `MethodMarker.mark` returns the same function object (identity
preserved, only the mark list changed by appending), `ensure_markers` yields the
empty list on a function without marks and is stable under repetition, and
successive `mark` calls accumulate markers in call order. -/
theorem mark_appends_in_call_order (f : FuncObj) (m m2 n : Nat) :
    (MethodMarker.mark m f).fid = f.fid
    ∧ (MethodMarker.mark m f).combadge_marks = some (f.combadge_marks.getD [] ++ [m])
    ∧ (MethodMarker.ensure_markers ⟨n, none⟩).2 = []
    ∧ MethodMarker.ensure_markers (MethodMarker.ensure_markers f).1
        = ((MethodMarker.ensure_markers f).1, (MethodMarker.ensure_markers f).2)
    ∧ (MethodMarker.mark m2 (MethodMarker.mark m f)).combadge_marks
        = some (f.combadge_marks.getD [] ++ [m, m2]) := by
  obtain ⟨fid, marks⟩ := f
  cases marks <;> simp [MethodMarker.mark, MethodMarker.ensure_markers]

/-- C4: the zeep binder splits the declared return annotation into the success
and fault shapes once at bind time; at call time a transport `Fault` is parsed
into the fault shape and a normal response into the success shape. -/
theorem zeep_bind_method_splits_success_fault (s f : Nat) (raw code : Int) :
    ZeepBackend.bind_method (.unionOf s f) (.response raw) = .success s raw
    ∧ ZeepBackend.bind_method (.unionOf s f) (.fault code) = .soapFault f code
    ∧ ∀ o, ZeepBackend.bind_method (.unionOf s f) o = ZeepBackend.call s f o :=
  ⟨rfl, rfl, fun _ => rfl⟩

/-- C6 counterexample: `_enumerate_methods` checks that `self` occurs among the
parameters, not that the first parameter is the receiver: the callable
non-private member `foo(x, self)` is enumerated although its first parameter is
not the receiver. -/
theorem enumerate_methods_first_param_counterexample :
    _enumerate_methods [⟨"foo", true, ["x", "self"]⟩] = [⟨"foo", true, ["x", "self"]⟩]
    ∧ (Member.mk "foo" true ["x", "self"]).params.head? ≠ some "self" := by
  constructor
  · decide
  · decide

/-- C6 amended: binding enumerates exactly the callable members whose name does
not start with an underscore and whose declared parameters contain `self` (in
any position); every other member is skipped silently (the enumeration is total
and never reports an error). -/
theorem enumerate_methods_members (ms : List Member) (m : Member) :
    m ∈ _enumerate_methods ms
      ↔ m ∈ ms ∧ m.isCallable = true ∧ startsWithUnderscore m.name = false ∧ "self" ∈ m.params := by
  simp [_enumerate_methods, List.mem_filter, and_assoc]

/-- C9: `get_url_path` returns the stored path exactly when it is a non-empty
string and raises `ValueError` exactly when the stored path is absent or empty;
`get_method` behaves the same way for the HTTP method field (both accessors are
pure functions of the request, mutating nothing). -/
theorem http_accessors_validate (s : SupportsUrlPath) (t : SupportsMethod) (p m : String) :
    (s.get_url_path = Except.ok p ↔ s.url_path = some p ∧ p ≠ "")
    ∧ ((∃ e, s.get_url_path = Except.error e) ↔ s.url_path = none ∨ s.url_path = some "")
    ∧ (t.get_method = Except.ok m ↔ t.method = some m ∧ m ≠ "")
    ∧ ((∃ e, t.get_method = Except.error e) ↔ t.method = none ∨ t.method = some "") := by
  obtain ⟨up⟩ := s
  obtain ⟨mt⟩ := t
  refine ⟨?_, ?_, ?_, ?_⟩
  · cases up with
    | none => simp [SupportsUrlPath.get_url_path]
    | some q =>
        by_cases hq : q = ""
        · subst hq
          simp [SupportsUrlPath.get_url_path]
          rintro rfl
          simp
        · simp [SupportsUrlPath.get_url_path, hq]
          rintro rfl
          exact hq
  · cases up with
    | none => simp [SupportsUrlPath.get_url_path]
    | some q =>
        by_cases hq : q = ""
        · subst hq
          simp [SupportsUrlPath.get_url_path]
        · simp [SupportsUrlPath.get_url_path, hq]
  · cases mt with
    | none => simp [SupportsMethod.get_method]
    | some q =>
        by_cases hq : q = ""
        · subst hq
          simp [SupportsMethod.get_method]
          rintro rfl
          simp
        · simp [SupportsMethod.get_method, hq]
          rintro rfl
          exact hq
  · cases mt with
    | none => simp [SupportsMethod.get_method]
    | some q =>
        by_cases hq : q = ""
        · subst hq
          simp [SupportsMethod.get_method]
        · simp [SupportsMethod.get_method, hq]

/-- Helper: a lookup at the head of the cache list hits. -/
theorem lookupCache_cons_self (k : CacheKey) (v : Nat) (t : List (CacheKey × Nat)) :
    lookupCache k ((k, v) :: t) = some v := by
  simp [lookupCache]

/-- Helper: erasing a key that is present shortens the cache list by one. -/
theorem length_eraseCache_hit (k : CacheKey) (l : List (CacheKey × Nat)) (v : Nat)
    (h : lookupCache k l = some v) : (eraseCache k l).length + 1 = l.length := by
  induction l with
  | nil => simp [lookupCache] at h
  | cons hd tl ih =>
      obtain ⟨k2, v2⟩ := hd
      by_cases hk : k2 = k
      · simp [eraseCache, hk]
      · simp only [lookupCache, if_neg hk] at h
        simp [eraseCache, hk, ih h]

/-- C1: `bind_class` is memoized: an immediately repeated bind of the same
(interface, binder) key returns the identical cached implementation class (so
its bound callables are the same objects), while the cache never exceeds its
capacity of 100 entries and, on a miss with a full cache, evicts exactly the
least-recently-used entry. -/
theorem bind_class_memoized_lru (st : BinderState) (k : CacheKey)
    (h : st.cache.length ≤ 100) :
    (bind_class (bind_class st k).2 k).1 = (bind_class st k).1
    ∧ (bind_class st k).2.cache.length ≤ 100
    ∧ (st.cache.length = 100 → lookupCache k st.cache = none →
        (bind_class st k).2.cache = (k, (bind_class st k).1) :: st.cache.dropLast) := by
  cases hl : lookupCache k st.cache with
  | some v =>
      refine ⟨?_, ?_, ?_⟩
      · simp [bind_class, hl, lookupCache]
      · simp only [bind_class, hl]
        have := length_eraseCache_hit k st.cache v hl
        simp only [List.length_cons]
        omega
      · intro _ h2
        simp at h2
  | none =>
      have htake : ((k, st.counter) :: st.cache).take 100 = (k, st.counter) :: st.cache.take 99 := by
        rw [show (100 : Nat) = 99 + 1 from rfl, List.take_succ_cons]
      refine ⟨?_, ?_, ?_⟩
      · simp [bind_class, hl, htake, lookupCache]
      · simp only [bind_class, hl]
        have := List.length_take 100 ((k, st.counter) :: st.cache)
        simp only [this]
        omega
      · intro hlen _
        simp only [bind_class, hl, htake]
        rw [List.dropLast_eq_take, hlen]

/-- C1 witness: repeated binding of a concrete key in the empty state. -/
theorem bind_class_memoized_lru_witness :
    (BinderState.mk [] 0).cache.length ≤ 100
    ∧ ((bind_class (bind_class ⟨[], 0⟩ (1, 2)).2 (1, 2)).1 = (bind_class ⟨[], 0⟩ (1, 2)).1
       ∧ (bind_class (⟨[], 0⟩ : BinderState) (1, 2)).2.cache.length ≤ 100
       ∧ ((BinderState.mk [] 0).cache.length = 100
            → lookupCache (1, 2) (BinderState.mk [] 0).cache = none
            → (bind_class (⟨[], 0⟩ : BinderState) (1, 2)).2.cache
                = ((1, 2), (bind_class (⟨[], 0⟩ : BinderState) (1, 2)).1)
                    :: (BinderState.mk [] 0).cache.dropLast)) :=
  ⟨by decide, bind_class_memoized_lru ⟨[], 0⟩ (1, 2) (by decide)⟩

/-- C2: when a required argument is missing, the composite bound method fails in
its validation layer: the call returns a validation error and neither the
request builder nor the backend transport ever runs (the event trace is empty). -/
theorem missing_argument_skips_build_and_transport (sig : Signature)
    (params : List CallParameter) (args : Args) (p : CallParameter)
    (hp : p ∈ params) (hreq : p.required = true) (hmiss : lookupArg args p.name = none) :
    (∃ e, (bound_method sig params args).2 = Except.error e)
    ∧ (bound_method sig params args).1 = [] := by
  have hv : validate_arguments params args = .error "missing required argument" := by
    unfold validate_arguments
    rw [if_neg]
    intro hall
    rw [List.all_eq_true] at hall
    have hfail := hall p hp
    rw [hreq, hmiss] at hfail
    simp at hfail
  refine ⟨⟨"missing required argument", ?_⟩, ?_⟩ <;> simp [bound_method, hv]

/-- C2 witness: a call missing the single required parameter `x`. -/
theorem missing_argument_skips_build_and_transport_witness :
    ((⟨"x", true⟩ : CallParameter) ∈ [(⟨"x", true⟩ : CallParameter)])
    ∧ (⟨"x", true⟩ : CallParameter).required = true
    ∧ lookupArg [] (⟨"x", true⟩ : CallParameter).name = none
    ∧ ((∃ e, (bound_method ⟨[], []⟩ [⟨"x", true⟩] []).2 = Except.error e)
       ∧ (bound_method ⟨[], []⟩ [⟨"x", true⟩] []).1 = []) :=
  ⟨List.mem_singleton.mpr rfl, rfl, rfl,
    missing_argument_skips_build_and_transport ⟨[], []⟩ [⟨"x", true⟩] [] ⟨"x", true⟩
      (List.mem_singleton.mpr rfl) rfl rfl⟩

/-- Helper: the method-marker phase changes the request's HTTP method field to
the net effect `methodFieldAfter` of the marker list. -/
theorem applyMethodMarkers_method (args : Args) (l : List MethodMarkModel) (r : RestRequest) :
    (applyMethodMarkers args l r).method = methodFieldAfter l r.method := by
  induction l generalizing r with
  | nil => rfl
  | cons m t ih =>
      have h1 : applyMethodMarkers args (m :: t) r
          = applyMethodMarkers args t (m.prepare_request r args) := rfl
      have h2 : methodFieldAfter (m :: t) r.method
          = methodFieldAfter t ((m.prepare_request r args).method) := by
        cases m <;> rfl
      rw [h1, h2, ih]

/-- Helper: `methodFieldAfter` distributes over list append. -/
theorem methodFieldAfter_append (l1 l2 : List MethodMarkModel) (c : Option String) :
    methodFieldAfter (l1 ++ l2) c = methodFieldAfter l2 (methodFieldAfter l1 c) := by
  simp [methodFieldAfter, List.foldl_append]

/-- Helper: markers that do not set the method field leave it unchanged. -/
theorem methodFieldAfter_no_set (l : List MethodMarkModel) (c : Option String)
    (h : ∀ m ∈ l, setsMethodField m = false) : methodFieldAfter l c = c := by
  induction l generalizing c with
  | nil => rfl
  | cons m t ih =>
      have hm := h m (List.mem_cons_self m t)
      cases m with
      | restMethodMark s => simp [setsMethodField] at hm
      | wrapWithMarker i =>
          have h1 : methodFieldAfter (MethodMarkModel.wrapWithMarker i :: t) c
              = methodFieldAfter t c := rfl
          rw [h1]
          exact ih c fun m2 hm2 => h m2 (List.mem_cons_of_mem _ hm2)

/-- Helper: the parameter-marker phase never touches the request's HTTP method
field (the only parameter marker appends to the query parameters). -/
theorem applyParameterMarkers_method (args : Args) (l : List ParameterDescriptor)
    (r : RestRequest) : (applyParameterMarkers args l r).method = r.method := by
  induction l generalizing r with
  | nil => rfl
  | cons p t ih =>
      have h1 : applyParameterMarkers args (p :: t) r
          = applyParameterMarkers args t (applyParameterStep args r p) := rfl
      rw [h1, ih]
      rcases p with ⟨nm, mk⟩
      cases mk with
      | none => rfl
      | some pm =>
          cases hv : lookupArg args nm with
          | none => simp [applyParameterStep, hv]
          | some v =>
              cases pm
              simp [applyParameterStep, hv, ParameterMarkModel.prepare_request]

/-- C3: method markers are applied in declaration order, so when two markers set
the request's method field and no later marker sets it again, the built request
holds the value of the later-declared marker ("last declared wins"). -/
theorem last_declared_method_mark_wins (l1 l2 l3 : List MethodMarkModel) (s1 s2 : String)
    (ps : List ParameterDescriptor) (args : Args)
    (h : ∀ m ∈ l3, setsMethodField m = false) :
    (build_request
        ⟨l1 ++ [.restMethodMark s1] ++ l2 ++ [.restMethodMark s2] ++ l3, ps⟩ args).method
      = some s2 := by
  unfold build_request
  rw [applyParameterMarkers_method, applyMethodMarkers_method]
  simp only [methodFieldAfter_append]
  rw [methodFieldAfter_no_set l3 _ h]
  rfl

/-- C3 witness: `@method("GET")` then `@method("POST")` followed by a wrap-only
marker leaves the method field at `POST`. -/
theorem last_declared_method_mark_wins_witness :
    (∀ m ∈ [MethodMarkModel.wrapWithMarker 0], setsMethodField m = false)
    ∧ (build_request
        ⟨[] ++ [.restMethodMark "GET"] ++ [] ++ [.restMethodMark "POST"]
            ++ [MethodMarkModel.wrapWithMarker 0], []⟩ []).method
      = some "POST" :=
  ⟨by decide,
    last_declared_method_mark_wins [] [] [MethodMarkModel.wrapWithMarker 0] "GET" "POST" [] []
      (by decide)⟩

/-- Helper: the instrumented method-marker phase builds the same request as the
plain phase and appends one recorded step per marker, in declaration order, each
receiving the whole bound-arguments mapping. -/
theorem applyMethodMarkersT_spec (args : Args) (l : List MethodMarkModel)
    (r : RestRequest) (acc : List BuildStep) :
    applyMethodMarkersT args l (r, acc)
      = (applyMethodMarkers args l r, acc ++ l.map fun m => BuildStep.methodStep m args) := by
  induction l generalizing r acc with
  | nil => simp [applyMethodMarkersT, applyMethodMarkers]
  | cons m t ih =>
      have h1 : applyMethodMarkersT args (m :: t) (r, acc)
          = applyMethodMarkersT args t
              (m.prepare_request r args, acc ++ [BuildStep.methodStep m args]) := rfl
      have h2 : applyMethodMarkers args (m :: t) r
          = applyMethodMarkers args t (m.prepare_request r args) := rfl
      rw [h1, h2, ih]
      simp

/-- Helper: the instrumented parameter-marker phase builds the same request as
the plain phase and appends one recorded step per marked parameter with a bound
value, in declared parameter order, each receiving only its own value. -/
theorem applyParameterMarkersT_spec (args : Args) (l : List ParameterDescriptor)
    (r : RestRequest) (acc : List BuildStep) :
    applyParameterMarkersT args l (r, acc)
      = (applyParameterMarkers args l r,
          acc ++ l.filterMap fun p =>
            p.marker.bind fun _ => (lookupArg args p.name).map fun v =>
              BuildStep.paramStep p.name v) := by
  induction l generalizing r acc with
  | nil => simp [applyParameterMarkersT, applyParameterMarkers]
  | cons p t ih =>
      have h1 : applyParameterMarkersT args (p :: t) (r, acc)
          = applyParameterMarkersT args t (applyParameterStepT args (r, acc) p) := rfl
      have h2 : applyParameterMarkers args (p :: t) r
          = applyParameterMarkers args t (applyParameterStep args r p) := rfl
      rw [h1, h2]
      rcases p with ⟨nm, mk⟩
      cases mk with
      | none => rw [show applyParameterStepT args (r, acc) ⟨nm, none⟩ = (r, acc) from rfl]
                rw [ih]
                simp [applyParameterStep, Option.bind]
      | some pm =>
          cases hv : lookupArg args nm with
          | none =>
              rw [show applyParameterStepT args (r, acc) ⟨nm, some pm⟩
                    = (applyParameterStep args r ⟨nm, some pm⟩, acc) from by
                simp [applyParameterStepT, applyParameterStep, hv]]
              rw [ih]
              simp [hv]
          | some v =>
              rw [show applyParameterStepT args (r, acc) ⟨nm, some pm⟩
                    = (applyParameterStep args r ⟨nm, some pm⟩,
                        acc ++ [BuildStep.paramStep nm v]) from by
                simp [applyParameterStepT, applyParameterStep, hv]]
              rw [ih]
              simp [hv]

/-- C5: within one request build the marker applications form one deterministic
total order: every method marker's `prepare_request` runs first, in declaration
order, receiving the whole bound-arguments mapping, and only then each marked
parameter's `prepare_request` runs, in declared parameter order, receiving only
that parameter's value; the instrumented build produces exactly the request of
`build_request`, so equal descriptors and arguments perform equal mutation
sequences. -/
theorem build_request_marker_order_total (sig : Signature) (args : Args) :
    (build_request_trace sig args).2
      = (sig.method_markers.map fun m => BuildStep.methodStep m args)
        ++ sig.parameters.filterMap (fun p =>
            p.marker.bind fun _ => (lookupArg args p.name).map fun v =>
              BuildStep.paramStep p.name v)
    ∧ (build_request_trace sig args).1 = build_request sig args := by
  unfold build_request_trace build_request
  rw [applyMethodMarkersT_spec, applyParameterMarkersT_spec]
  simp

/-- C8: with parameters `a` (query-parameter mark) and `b` (no mark) and bound
arguments `{a: 1, b: 2}`, the built request carries exactly `a`'s query
parameter and nothing else; the value bound to `b` never influences the result,
and a query-parameter mark only ever touches the query-parameter field. -/
theorem query_param_frame (v : Int) :
    build_request ⟨[], [⟨"a", some (.queryParam "a")⟩, ⟨"b", none⟩]⟩ [("a", 1), ("b", 2)]
      = { method := none, path := none, query_params := [("a", 1)] }
    ∧ build_request ⟨[], [⟨"a", some (.queryParam "a")⟩, ⟨"b", none⟩]⟩ [("a", 1), ("b", v)]
      = build_request ⟨[], [⟨"a", some (.queryParam "a")⟩, ⟨"b", none⟩]⟩ [("a", 1), ("b", 2)]
    ∧ ∀ (r : RestRequest) (w : Int) (n : String),
        ((ParameterMarkModel.queryParam n).prepare_request r w).method = r.method
        ∧ ((ParameterMarkModel.queryParam n).prepare_request r w).path = r.path := by
  refine ⟨by decide, ?_, fun r w n => ⟨rfl, rfl⟩⟩
  simp [build_request, applyMethodMarkers, applyParameterMarkers, applyParameterStep,
    lookupArg, ParameterMarkModel.prepare_request]

end Combadge
